import Mathlib

/-!
Verification of the loadcurve-genius marketplace core against its
specification.

Part 1 embeds the trade settlement handler (the `execute-trade` serve
callback) together with the datastore schema declared by the repository's
SQL migration: the `user_assets` table with its `(0, 100]` check constraint
and `UNIQUE (user_id, asset_id)` constraint, and the `transactions` table
with its `(0, 100]` percent check and `transaction_type IN ('buy','sell')`
check.  JavaScript numbers are modelled as rationals; string truthiness is
modelled as inequality with the empty string, and numeric truthiness as
inequality with zero.

Part 2 embeds the load-curve analyzer (`parseCSV`, `analyzeLoadCurve`) and
the JSON extraction performed on the model reply.  There, the JavaScript
number is modelled as `Option ℚ`, with `none` playing the role of `NaN`
(the value `parseFloat` produces on non-numeric text); arithmetic on it is
NaN-absorbing, and `===` / `>` comparisons involving `NaN` are false, as
in JavaScript.
-/

/-- One row of the `user_assets` table. -/
structure OwnershipRow where
  user_id : String
  asset_id : String
  ownership_percent : ℚ
deriving DecidableEq

/-- One row of the `transactions` table. -/
structure TransactionRow where
  asset_id : String
  buyer_id : Option String
  seller_id : Option String
  percent_traded : ℚ
  price_per_percent : ℚ
  total_price : ℚ
  transaction_type : String
deriving DecidableEq

/-- The slice of the datastore the trade handler touches. -/
structure Store where
  user_assets : List OwnershipRow
  transactions : List TransactionRow
deriving DecidableEq

/-- The request body of the execute-trade endpoint. -/
structure TradeRequest where
  assetId : String
  userId : String
  percentage : ℚ
  mode : String
  pricePerPercent : ℚ
deriving DecidableEq

def emptyStore : Store := { user_assets := [], transactions := [] }

/-- The `.eq('user_id', userId).eq('asset_id', assetId)` filter. -/
def rowMatches (uid aid : String) (r : OwnershipRow) : Bool :=
  r.user_id == uid && r.asset_id == aid

/-- The `maybeSingle()` read of `ownership_percent` for a (user, asset) pair. -/
def lookupOwnership (s : Store) (uid aid : String) : Option ℚ :=
  (s.user_assets.find? (rowMatches uid aid)).map (fun r => r.ownership_percent)

def msgCheckViolation : String := "check constraint violation"

/-- The datastore delete on `user_assets` for a (user, asset) pair. -/
def dbDeleteOwnership (s : Store) (uid aid : String) : Except String Store :=
  Except.ok { s with user_assets := s.user_assets.filter (fun r => !(rowMatches uid aid r)) }

/-- The datastore update of `ownership_percent` for a (user, asset) pair.
The migration's check constraint restricts the stored value to (0, 100]. -/
def dbUpdateOwnership (s : Store) (uid aid : String) (v : ℚ) : Except String Store :=
  if 0 < v ∧ v ≤ 100 then
    Except.ok { s with user_assets :=
      s.user_assets.map (fun r =>
        if rowMatches uid aid r then { r with ownership_percent := v } else r) }
  else Except.error msgCheckViolation

/-- The datastore insert into `user_assets`.  The migration declares the
(0, 100] check constraint and `UNIQUE (user_id, asset_id)`. -/
def dbInsertOwnership (s : Store) (uid aid : String) (v : ℚ) : Except String Store :=
  if (0 < v ∧ v ≤ 100) ∧ s.user_assets.all (fun r => !(rowMatches uid aid r)) then
    Except.ok { s with user_assets := s.user_assets ++ [⟨uid, aid, v⟩] }
  else Except.error msgCheckViolation

/-- The datastore insert into `transactions`.  The migration declares
`percent_traded` in (0, 100] and `transaction_type IN ('buy', 'sell')`. -/
def dbInsertTransaction (s : Store) (t : TransactionRow) : Except String Store :=
  if (0 < t.percent_traded ∧ t.percent_traded ≤ 100) ∧
      (t.transaction_type = "buy" ∨ t.transaction_type = "sell") then
    Except.ok { s with transactions := s.transactions ++ [t] }
  else Except.error msgCheckViolation

def msgMissingFields : String := "Missing required fields"

def msgInvalidPercentage : String := "Invalid percentage"

def msgOverbuy : String := "Cannot own more than 100% of an asset"

def msgInsufficient : String := "Insufficient ownership to sell"

def msgOwnershipUpdateFailed : String := "Failed to update ownership"

def msgOwnershipCreateFailed : String := "Failed to create ownership"

def msgTxFailed : String := "Failed to record transaction"

/-- The transaction row built by the handler: buyer set exactly when mode is
`buy`, seller set exactly when mode is `sell`, total price `percentage *
pricePerPercent`, and `transaction_type` set to the raw mode string. -/
def mkTransaction (req : TradeRequest) : TransactionRow :=
  { asset_id := req.assetId
    buyer_id := if req.mode = "buy" then some req.userId else none
    seller_id := if req.mode = "sell" then some req.userId else none
    percent_traded := req.percentage
    price_per_percent := req.pricePerPercent
    total_price := req.percentage * req.pricePerPercent
    transaction_type := req.mode }

/-- Step 5 of the handler: delete the ownership row when the new percentage
is exactly zero, update it when a row existed, insert one otherwise. -/
def persistOwnership (s : Store) (req : TradeRequest) (hadRecord : Bool) (newPercent : ℚ) :
    Except String Store :=
  if newPercent = 0 then dbDeleteOwnership s req.userId req.assetId
  else if hadRecord then dbUpdateOwnership s req.userId req.assetId newPercent
  else dbInsertOwnership s req.userId req.assetId newPercent

/-- The two sequential writes of the handler: the ownership write, then the
transaction insert.  A failing ownership write aborts with the handler's
message for that branch; a failing transaction insert aborts after the
ownership write has already been applied (the source performs the two
writes with no surrounding transaction). -/
def finishTrade (s : Store) (req : TradeRequest) (hadRecord : Bool) (newPercent : ℚ) :
    Store × Except String ℚ :=
  match persistOwnership s req hadRecord newPercent with
  | Except.error _ =>
      (s, Except.error (if newPercent = 0 ∨ hadRecord then msgOwnershipUpdateFailed
                        else msgOwnershipCreateFailed))
  | Except.ok s1 =>
      match dbInsertTransaction s1 (mkTransaction req) with
      | Except.error _ => (s1, Except.error msgTxFailed)
      | Except.ok s2 => (s2, Except.ok newPercent)

/-- The execute-trade serve callback.  The pair holds the datastore state
after the request and the response: `Except.ok` carries the `newOwnership`
value of the 200 response, `Except.error` the message of the 400 response.
Field presence checks model JavaScript truthiness (`!field`). -/
def executeTrade (s : Store) (req : TradeRequest) : Store × Except String ℚ :=
  if req.assetId = "" ∨ req.userId = "" ∨ req.percentage = 0 ∨ req.mode = "" ∨
      req.pricePerPercent = 0 then
    (s, Except.error msgMissingFields)
  else if req.percentage ≤ 0 ∨ 100 < req.percentage then
    (s, Except.error msgInvalidPercentage)
  else
    let currentOwnership := lookupOwnership s req.userId req.assetId
    let currentPercent := currentOwnership.getD 0
    if req.mode = "buy" then
      if 100 < currentPercent + req.percentage then
        (s, Except.error msgOverbuy)
      else finishTrade s req currentOwnership.isSome (currentPercent + req.percentage)
    else
      if currentPercent < req.percentage then
        (s, Except.error msgInsufficient)
      else finishTrade s req currentOwnership.isSome (currentPercent - req.percentage)

def mkBuy (aid uid : String) (ppp p : ℚ) : TradeRequest :=
  { assetId := aid, userId := uid, percentage := p, mode := "buy", pricePerPercent := ppp }

def singleOwner (uid aid : String) : Option ℚ → List OwnershipRow
  | none => []
  | some c => [⟨uid, aid, c⟩]

lemma rowMatches_self (uid aid : String) (c : ℚ) :
    rowMatches uid aid ⟨uid, aid, c⟩ = true := by
  simp [rowMatches]

lemma lookupOwnership_singleOwner (uid aid : String) (co : Option ℚ)
    (ts : List TransactionRow) :
    lookupOwnership ⟨singleOwner uid aid co, ts⟩ uid aid = co := by
  cases co <;> simp [lookupOwnership, singleOwner, List.find?, rowMatches]

lemma executeTrade_buy_over (aid uid : String) (ppp p : ℚ)
    (ha : aid ≠ "") (hu : uid ≠ "") (hppp : ppp ≠ 0)
    (hp : 0 < p) (hp2 : p ≤ 100)
    (co : Option ℚ) (ts : List TransactionRow)
    (hover : 100 < co.getD 0 + p) :
    executeTrade ⟨singleOwner uid aid co, ts⟩ (mkBuy aid uid ppp p) =
      (⟨singleOwner uid aid co, ts⟩, Except.error msgOverbuy) := by
  have hlook := lookupOwnership_singleOwner uid aid co ts
  simp only [executeTrade, mkBuy] at *
  rw [hlook]
  cases co <;> simp_all [ne_of_gt hp, not_le.mpr hp, not_lt.mpr hp2, ha, hu, hppp]

lemma executeTrade_buy_ok (aid uid : String) (ppp p : ℚ)
    (ha : aid ≠ "") (hu : uid ≠ "") (hppp : ppp ≠ 0)
    (hp : 0 < p) (hp2 : p ≤ 100)
    (co : Option ℚ) (hco : ∀ c ∈ co, 0 < c) (ts : List TransactionRow)
    (hle : co.getD 0 + p ≤ 100) :
    executeTrade ⟨singleOwner uid aid co, ts⟩ (mkBuy aid uid ppp p) =
      (⟨singleOwner uid aid (some (co.getD 0 + p)),
        ts ++ [mkTransaction (mkBuy aid uid ppp p)]⟩,
       Except.ok (co.getD 0 + p)) := by
  have hlook := lookupOwnership_singleOwner uid aid co ts
  simp only [executeTrade, mkBuy] at *
  rw [hlook]
  cases co with
  | none =>
    have hz : (0:ℚ) + p ≠ 0 := by simpa using ne_of_gt hp
    simp_all [ne_of_gt hp, not_le.mpr hp, not_lt.mpr hp2, ha, hu, hppp,
      finishTrade, persistOwnership, dbInsertOwnership, dbInsertTransaction,
      mkTransaction, singleOwner, not_lt.mpr hle, hp, hp2]
  | some c =>
    have hc : 0 < c := hco c rfl
    have hz : c + p ≠ 0 := by positivity
    have hcp : 0 < c + p := by positivity
    simp_all [ne_of_gt hp, not_le.mpr hp, not_lt.mpr hp2, ha, hu, hppp,
      finishTrade, persistOwnership, dbUpdateOwnership, dbInsertTransaction,
      mkTransaction, singleOwner, rowMatches_self, not_lt.mpr hle, hp, hp2, hcp]

def runBuys (aid uid : String) (ppp : ℚ) : Store → List ℚ → Store × List (Except String ℚ)
  | s, [] => (s, [])
  | s, p :: ps =>
    let r := executeTrade s (mkBuy aid uid ppp p)
    let rest := runBuys aid uid ppp r.1 ps
    (rest.1, r.2 :: rest.2)

def runningFrom (c : ℚ) : List ℚ → List ℚ
  | [] => []
  | p :: ps => (c + p) :: runningFrom (c + p) ps

lemma runBuys_spec (aid uid : String) (ppp : ℚ)
    (ha : aid ≠ "") (hu : uid ≠ "") (hppp : ppp ≠ 0)
    (ps : List ℚ) :
    ∀ (co : Option ℚ) (ts : List TransactionRow),
      (∀ p ∈ ps, 0 < p ∧ p ≤ 100) → (∀ c ∈ co, 0 < c) →
      co.getD 0 + ps.sum ≤ 100 →
      ∃ ts', runBuys aid uid ppp ⟨singleOwner uid aid co, ts⟩ ps =
        (⟨singleOwner uid aid (if ps.isEmpty then co else some (co.getD 0 + ps.sum)), ts'⟩,
         (runningFrom (co.getD 0) ps).map Except.ok) := by
  induction ps with
  | nil =>
    intro co ts hps hco hsum
    exact ⟨ts, by simp [runBuys, runningFrom]⟩
  | cons p ps ih =>
    intro co ts hps hco hsum
    have hp := hps p (List.mem_cons_self p ps)
    have h0 : 0 ≤ co.getD 0 := by
      cases co with
      | none => simp
      | some c => exact le_of_lt (hco c rfl)
    have hrest_nonneg : 0 ≤ ps.sum :=
      List.sum_nonneg (fun x hx => le_of_lt (hps x (List.mem_cons_of_mem _ hx)).1)
    have hsum' : co.getD 0 + (p + ps.sum) ≤ 100 := by simpa using hsum
    have hle : co.getD 0 + p ≤ 100 := by linarith
    have hstep := executeTrade_buy_ok aid uid ppp p ha hu hppp hp.1 hp.2 co hco ts hle
    obtain ⟨ts', hrest⟩ := ih (some (co.getD 0 + p))
      (ts ++ [mkTransaction (mkBuy aid uid ppp p)])
      (fun x hx => hps x (List.mem_cons_of_mem _ hx))
      (by intro c hc; rw [Option.mem_def, Option.some.injEq] at hc; subst hc; linarith)
      (by simp only [Option.getD_some]; linarith)
    refine ⟨ts', ?_⟩
    have hopt : (if ps.isEmpty = true then some (co.getD 0 + p)
        else some ((some (co.getD 0 + p)).getD 0 + ps.sum)) = some (co.getD 0 + (p :: ps).sum) := by
      cases ps <;> simp [List.sum_cons, add_assoc]
    simp only [Option.getD_some] at hopt
    simp only [runBuys, hstep, hrest, hopt, runningFrom, List.map_cons, List.isEmpty_cons,
      Bool.false_eq_true, if_false, Option.getD_some]

/-- C1: for every asset and user starting with no ownership record, a
sequence of sequential buys with percentages in (0, 100] whose sum stays at
or below 100 succeeds throughout, each response returning the running sum;
the stored ownership ends at the total; and a further buy that would push
the sum past 100 is rejected with the overbuy error, leaving the store
unchanged. -/
theorem C1_sequential_buys (aid uid : String) (ppp : ℚ)
    (ha : aid ≠ "") (hu : uid ≠ "") (hppp : ppp ≠ 0)
    (ps : List ℚ) (hps : ∀ p ∈ ps, 0 < p ∧ p ≤ 100) (hsum : ps.sum ≤ 100) :
    (runBuys aid uid ppp emptyStore ps).2 = (runningFrom 0 ps).map Except.ok ∧
    (lookupOwnership (runBuys aid uid ppp emptyStore ps).1 uid aid).getD 0 = ps.sum ∧
    ∀ q, 0 < q → q ≤ 100 → 100 < ps.sum + q →
      executeTrade (runBuys aid uid ppp emptyStore ps).1 (mkBuy aid uid ppp q) =
        ((runBuys aid uid ppp emptyStore ps).1, Except.error msgOverbuy) := by
  obtain ⟨ts', hrun⟩ := runBuys_spec aid uid ppp ha hu hppp ps none []
    hps (by simp) (by simpa using hsum)
  simp only [Option.getD_none] at hrun
  have hes : emptyStore = (⟨singleOwner uid aid none, []⟩ : Store) := rfl
  rw [hes, hrun]
  have hpos : ∀ c ∈ (if ps.isEmpty = true then (none : Option ℚ) else some (0 + ps.sum)), 0 < c := by
    cases ps with
    | nil => simp
    | cons x xs =>
      intro c hc
      simp only [List.isEmpty_cons, Bool.false_eq_true, if_false, Option.mem_def,
        Option.some.injEq] at hc
      subst hc
      have hx := (hps x (List.mem_cons_self x xs)).1
      have hxs : 0 ≤ xs.sum :=
        List.sum_nonneg (fun y hy => le_of_lt (hps y (List.mem_cons_of_mem _ hy)).1)
      simp only [List.sum_cons, zero_add]
      linarith
  have hgd : (if ps.isEmpty = true then (none : Option ℚ) else some (0 + ps.sum)).getD 0
      = ps.sum := by
    cases ps <;> simp
  refine ⟨rfl, ?_, ?_⟩
  · rw [lookupOwnership_singleOwner, hgd]
  · intro q hq hq2 hover
    exact executeTrade_buy_over aid uid ppp q ha hu hppp hq hq2 _ ts'
      (by rw [hgd]; exact hover)

/-- Witness for C1 at a concrete sequence of buys. -/
theorem C1_sequential_buys_witness :
    (runBuys ("a") ("u") 1 emptyStore [30, 70]).2 = [Except.ok 30, Except.ok 100] ∧
    executeTrade (runBuys ("a") ("u") 1 emptyStore [30, 70]).1 (mkBuy ("a") ("u") 1 5) =
      ((runBuys ("a") ("u") 1 emptyStore [30, 70]).1, Except.error msgOverbuy) := by
  have h := C1_sequential_buys ("a") ("u") 1 (by decide) (by decide) (by norm_num)
    [30, 70] (by decide) (by norm_num [List.sum_cons])
  refine ⟨?_, h.2.2 5 (by norm_num) (by norm_num) (by norm_num [List.sum_cons])⟩
  rw [h.1]
  norm_num [runningFrom]

/-- The `(0, 100]` bound and per-pair uniqueness of `user_assets` rows. -/
def keysDistinct (l : List OwnershipRow) : Prop :=
  l.Pairwise (fun r1 r2 => ¬(r1.user_id = r2.user_id ∧ r1.asset_id = r2.asset_id))

/-- The datastore invariant for ownership rows: every stored percentage is
in (0, 100] and there is at most one row per (user, asset) pair. -/
def StoreWF (s : Store) : Prop :=
  (∀ r ∈ s.user_assets, 0 < r.ownership_percent ∧ r.ownership_percent ≤ 100) ∧
  keysDistinct s.user_assets

/-- A request whose fields all pass the handler's validation. -/
def validReq (req : TradeRequest) : Prop :=
  req.assetId ≠ "" ∧ req.userId ≠ "" ∧ req.mode ≠ "" ∧ req.pricePerPercent ≠ 0 ∧
  0 < req.percentage ∧ req.percentage ≤ 100

lemma rowMatches_update (uid aid : String) (v : ℚ) (r : OwnershipRow) :
    rowMatches uid aid { r with ownership_percent := v } = rowMatches uid aid r := rfl

lemma find?_filter_not (uid aid : String) (l : List OwnershipRow) :
    (l.filter (fun r => !(rowMatches uid aid r))).find? (rowMatches uid aid) = none := by
  rw [List.find?_eq_none]
  intro r hr
  have h := (List.mem_filter.mp hr).2
  simpa using h

lemma find?_update (uid aid : String) (v : ℚ) (l : List OwnershipRow) :
    (l.map (fun r => if rowMatches uid aid r then { r with ownership_percent := v } else r)).find?
        (rowMatches uid aid) =
      (l.find? (rowMatches uid aid)).map (fun r => { r with ownership_percent := v }) := by
  induction l with
  | nil => rfl
  | cons r l ih =>
    by_cases h : rowMatches uid aid r
    · have hh : rowMatches uid aid
          { user_id := r.user_id, asset_id := r.asset_id, ownership_percent := v } = true := by
        simpa [rowMatches] using h
      simp only [List.map_cons, if_pos h, List.find?_cons_of_pos _ hh,
        List.find?_cons_of_pos _ h, Option.map_some']
    · simp only [List.map_cons, if_neg h, List.find?_cons_of_neg _ h, ih]

lemma persistOwnership_wf (s : Store) (req : TradeRequest) (v : ℚ) (s1 : Store)
    (hwf : StoreWF s)
    (h : persistOwnership s req (lookupOwnership s req.userId req.assetId).isSome v
          = Except.ok s1) :
    StoreWF s1 ∧
    (v = 0 → lookupOwnership s1 req.userId req.assetId = none) ∧
    (v ≠ 0 → lookupOwnership s1 req.userId req.assetId = some v) := by
  obtain ⟨hbd, hdist⟩ := hwf
  by_cases hv : v = 0
  · rw [persistOwnership, if_pos hv] at h
    simp only [dbDeleteOwnership, Except.ok.injEq] at h
    subst h
    refine ⟨⟨?_, ?_⟩, fun _ => ?_, fun hne => absurd hv hne⟩
    · intro r hr
      exact hbd r (List.mem_filter.mp hr).1
    · exact List.Pairwise.sublist (List.filter_sublist _) hdist
    · simp only [lookupOwnership, find?_filter_not, Option.map_none']
  · rw [persistOwnership, if_neg hv] at h
    by_cases hsome : (lookupOwnership s req.userId req.assetId).isSome
    · rw [if_pos hsome, dbUpdateOwnership] at h
      split_ifs at h with hg
      · simp only [Except.ok.injEq] at h
        subst h
        refine ⟨⟨?_, ?_⟩, fun h0 => absurd h0 hv, fun _ => ?_⟩
        · intro r hr
          rw [List.mem_map] at hr
          obtain ⟨r0, hr0, hrr⟩ := hr
          by_cases hm : rowMatches req.userId req.assetId r0
          · rw [if_pos hm] at hrr
            rw [← hrr]
            exact hg
          · rw [if_neg hm] at hrr
            rw [← hrr]
            exact hbd r0 hr0
        · rw [keysDistinct, List.pairwise_map]
          refine hdist.imp ?_
          intro a b hab
          by_cases hma : rowMatches req.userId req.assetId a <;>
            by_cases hmb : rowMatches req.userId req.assetId b <;>
              simp [hma, hmb] <;> exact fun h1 h2 => hab ⟨h1, h2⟩
        · rw [lookupOwnership] at hsome ⊢
          rw [find?_update]
          rw [Option.isSome_iff_exists] at hsome
          obtain ⟨c, hc⟩ := hsome
          rw [Option.map_eq_some'] at hc
          obtain ⟨r0, hr0, _⟩ := hc
          rw [hr0]
          rfl
    · rw [if_neg hsome, dbInsertOwnership] at h
      split_ifs at h with hg
      · obtain ⟨⟨hg1, hg2⟩, hall⟩ := hg
        simp only [Except.ok.injEq] at h
        subst h
        have hnone : s.user_assets.find? (rowMatches req.userId req.assetId) = none := by
          rw [lookupOwnership] at hsome
          rw [Option.not_isSome_iff_eq_none] at hsome
          exact Option.map_eq_none'.mp hsome
        refine ⟨⟨?_, ?_⟩, fun h0 => absurd h0 hv, fun _ => ?_⟩
        · intro r hr
          rcases List.mem_append.mp hr with hl | hr1
          · exact hbd r hl
          · rw [List.mem_singleton] at hr1
            subst hr1
            exact ⟨hg1, hg2⟩
        · rw [keysDistinct, List.pairwise_append]
          refine ⟨hdist, List.pairwise_singleton _ _, ?_⟩
          intro a ha b hb
          rw [List.mem_singleton] at hb
          subst hb
          have := List.all_eq_true.mp hall a ha
          simp only [Bool.not_eq_true', rowMatches, Bool.and_eq_false_iff, beq_eq_false_iff_ne,
            ne_eq] at this
          intro hcontra
          rcases this with h1 | h2
          · exact h1 hcontra.1
          · exact h2 hcontra.2
        · rw [lookupOwnership, List.find?_append, hnone, Option.none_or,
            List.find?_cons_of_pos _ (rowMatches_self _ _ _)]
          rfl

lemma lookupOwnership_congr (s1 s2 : Store) (h : s2.user_assets = s1.user_assets)
    (uid aid : String) : lookupOwnership s2 uid aid = lookupOwnership s1 uid aid := by
  simp [lookupOwnership, h]

lemma finishTrade_cases (s : Store) (req : TradeRequest) (v : ℚ) (hwf : StoreWF s) :
    StoreWF (finishTrade s req (lookupOwnership s req.userId req.assetId).isSome v).1 ∧
    ∀ w, (finishTrade s req (lookupOwnership s req.userId req.assetId).isSome v).2
          = Except.ok w →
      w = v ∧
      (v = 0 →
        lookupOwnership (finishTrade s req (lookupOwnership s req.userId req.assetId).isSome v).1
          req.userId req.assetId = none) ∧
      (v ≠ 0 →
        lookupOwnership (finishTrade s req (lookupOwnership s req.userId req.assetId).isSome v).1
          req.userId req.assetId = some v) := by
  unfold finishTrade
  cases hpo : persistOwnership s req (lookupOwnership s req.userId req.assetId).isSome v with
  | error e =>
    dsimp only
    exact ⟨hwf, fun w hw => by simp at hw⟩
  | ok s1 =>
    dsimp only
    have hps := persistOwnership_wf s req v s1 hwf hpo
    cases htx : dbInsertTransaction s1 (mkTransaction req) with
    | error e =>
      dsimp only
      exact ⟨hps.1, fun w hw => by simp at hw⟩
    | ok s2 =>
      dsimp only
      have hua : s2.user_assets = s1.user_assets := by
        unfold dbInsertTransaction at htx
        split_ifs at htx
        simp only [Except.ok.injEq] at htx
        subst htx
        rfl
      refine ⟨⟨?_, ?_⟩, ?_⟩
      · rw [hua]; exact hps.1.1
      · rw [keysDistinct, hua]; exact hps.1.2
      · intro w hw
        simp only [Except.ok.injEq] at hw
        subst hw
        rw [lookupOwnership_congr s1 s2 hua]
        exact ⟨rfl, hps.2.1, hps.2.2⟩

/-- C2: every trade preserves the ownership invariant (each stored
percentage in (0, 100], at most one row per (user, asset) pair), a sell of
more than the current holding is rejected with the store untouched, the
ownership row is gone exactly when the traded-to percentage is zero, and a
nonzero new percentage is persisted and readable back. -/
theorem C2_trade_invariants (s : Store) (req : TradeRequest) (hwf : StoreWF s) :
    StoreWF (executeTrade s req).1 ∧
    (validReq req → req.mode ≠ "buy" →
      (lookupOwnership s req.userId req.assetId).getD 0 < req.percentage →
      executeTrade s req = (s, Except.error msgInsufficient)) ∧
    ∀ v, (executeTrade s req).2 = Except.ok v →
      (v = 0 → lookupOwnership (executeTrade s req).1 req.userId req.assetId = none) ∧
      (v ≠ 0 → lookupOwnership (executeTrade s req).1 req.userId req.assetId = some v) := by
  simp only [executeTrade]
  split_ifs with h1 h2 h3 h4 h5
  · refine ⟨hwf, fun hv _ _ => ?_, fun v hv => by cases hv⟩
    obtain ⟨ha, hu, hm, hppp, hp1, hp2⟩ := hv
    rcases h1 with h | h | h | h | h
    exacts [absurd h ha, absurd h hu, absurd h (ne_of_gt hp1), absurd h hm, absurd h hppp]
  · refine ⟨hwf, fun hv _ _ => ?_, fun v hv => by cases hv⟩
    obtain ⟨_, _, _, _, hp1, hp2⟩ := hv
    rcases h2 with h | h
    exacts [absurd h (not_le.mpr hp1), absurd h (not_lt.mpr hp2)]
  · exact ⟨hwf, fun _ hmb _ => absurd h3 hmb, fun v hv => by cases hv⟩
  · have hf := finishTrade_cases s req
      ((lookupOwnership s req.userId req.assetId).getD 0 + req.percentage) hwf
    refine ⟨hf.1, fun _ hmb _ => absurd h3 hmb, fun v hv => ?_⟩
    obtain ⟨hwv, hz, hnz⟩ := hf.2 v hv
    subst hwv
    exact ⟨hz, hnz⟩
  · exact ⟨hwf, fun _ _ _ => rfl, fun v hv => by cases hv⟩
  · have hf := finishTrade_cases s req
      ((lookupOwnership s req.userId req.assetId).getD 0 - req.percentage) hwf
    refine ⟨hf.1, fun _ _ hlt => absurd hlt h5, fun v hv => ?_⟩
    obtain ⟨hwv, hz, hnz⟩ := hf.2 v hv
    subst hwv
    exact ⟨hz, hnz⟩

/-- Witness for C2: a concrete full sell deletes the ownership row. -/
theorem C2_trade_invariants_witness :
    lookupOwnership
      (executeTrade ⟨[⟨("u"), ("a"), 50⟩], []⟩
        { assetId := "a", userId := "u", percentage := 50, mode := "sell",
          pricePerPercent := 2 }).1 ("u") ("a") = none := by
  have hwf : StoreWF ⟨[⟨("u"), ("a"), 50⟩], []⟩ := by
    constructor
    · intro r hr
      rw [List.mem_singleton] at hr
      subst hr
      norm_num
    · exact List.pairwise_singleton _ _
  have h := C2_trade_invariants ⟨[⟨("u"), ("a"), 50⟩], []⟩
    { assetId := "a", userId := "u", percentage := 50, mode := "sell", pricePerPercent := 2 } hwf
  have hok : (executeTrade ⟨[⟨("u"), ("a"), 50⟩], []⟩
      { assetId := "a", userId := "u", percentage := 50, mode := "sell",
        pricePerPercent := 2 }).2 = Except.ok 0 := by
    have hs1 : ("a" : String) ≠ "" := by decide
    have hs2 : ("u" : String) ≠ "" := by decide
    have hs3 : ("sell" : String) ≠ "" := by decide
    have hs4 : ("sell" : String) ≠ "buy" := by decide
    norm_num [executeTrade, lookupOwnership, List.find?, rowMatches, finishTrade,
      persistOwnership, dbDeleteOwnership, dbInsertTransaction, mkTransaction,
      hs1, hs2, hs3, hs4]
  exact (h.2.2 0 hok).1 rfl

lemma persistOwnership_transactions (s : Store) (req : TradeRequest) (had : Bool) (v : ℚ)
    (s1 : Store) (h : persistOwnership s req had v = Except.ok s1) :
    s1.transactions = s.transactions := by
  unfold persistOwnership dbDeleteOwnership dbUpdateOwnership dbInsertOwnership at h
  split_ifs at h <;> simp only [Except.ok.injEq] at h <;> subst h <;> rfl

lemma finishTrade_ok (s : Store) (req : TradeRequest) (had : Bool) (nv : ℚ) (s' : Store) (v : ℚ)
    (h : finishTrade s req had nv = (s', Except.ok v)) :
    v = nv ∧ s'.transactions = s.transactions ++ [mkTransaction req] ∧
    (req.mode = "buy" ∨ req.mode = "sell") := by
  unfold finishTrade at h
  cases hpo : persistOwnership s req had nv with
  | error e =>
    rw [hpo] at h
    have hc := congrArg Prod.snd h
    simp at hc
  | ok s1 =>
    rw [hpo] at h
    dsimp only at h
    cases htx : dbInsertTransaction s1 (mkTransaction req) with
    | error e =>
      rw [htx] at h
      have hc := congrArg Prod.snd h
      simp at hc
    | ok s2 =>
      rw [htx] at h
      dsimp only at h
      have hfst := congrArg Prod.fst h
      have hsnd := congrArg Prod.snd h
      simp only [Except.ok.injEq] at hfst hsnd
      unfold dbInsertTransaction at htx
      split_ifs at htx with hg
      simp only [Except.ok.injEq] at htx
      subst htx
      refine ⟨hsnd.symm, ?_, ?_⟩
      · rw [← hfst]
        simp [persistOwnership_transactions s req had nv s1 hpo]
      · simpa [mkTransaction] using hg.2

/-- C3: every successful trade appends exactly one transaction record, with
percent traded equal to the requested percentage, total price equal to
percentage times price-per-percent, buyer set and seller empty for a buy,
seller set and buyer empty for a sell. -/
theorem C3_transaction_append (s : Store) (req : TradeRequest) (s' : Store) (v : ℚ)
    (h : executeTrade s req = (s', Except.ok v)) :
    s'.transactions = s.transactions ++ [mkTransaction req] ∧
    (mkTransaction req).percent_traded = req.percentage ∧
    (mkTransaction req).total_price = req.percentage * req.pricePerPercent ∧
    ((req.mode = "buy" ∧ (mkTransaction req).buyer_id = some req.userId ∧
        (mkTransaction req).seller_id = none) ∨
     (req.mode = "sell" ∧ (mkTransaction req).seller_id = some req.userId ∧
        (mkTransaction req).buyer_id = none)) := by
  simp only [executeTrade] at h
  split_ifs at h with h1 h2 h3 h4 h5
  · have hc := congrArg Prod.snd h; simp at hc
  · have hc := congrArg Prod.snd h; simp at hc
  · have hc := congrArg Prod.snd h; simp at hc
  · obtain ⟨hv, htx, hmode⟩ := finishTrade_ok _ _ _ _ _ _ h
    refine ⟨htx, rfl, rfl, ?_⟩
    rcases hmode with hb | hs
    · left
      refine ⟨hb, ?_, ?_⟩ <;> simp [mkTransaction, hb]
    · right
      have hbs : req.mode ≠ "buy" := by rw [hs]; decide
      refine ⟨hs, ?_, ?_⟩ <;> simp [mkTransaction, hs, hbs]
  · have hc := congrArg Prod.snd h; simp at hc
  · obtain ⟨hv, htx, hmode⟩ := finishTrade_ok _ _ _ _ _ _ h
    refine ⟨htx, rfl, rfl, ?_⟩
    rcases hmode with hb | hs
    · left
      refine ⟨hb, ?_, ?_⟩ <;> simp [mkTransaction, hb]
    · right
      have hbs : req.mode ≠ "buy" := by rw [hs]; decide
      refine ⟨hs, ?_, ?_⟩ <;> simp [mkTransaction, hs, hbs]

def c3req : TradeRequest :=
  { assetId := "a", userId := "u", percentage := 30, mode := "buy", pricePerPercent := 2 }

/-- Witness for C3 at a concrete successful buy. -/
theorem C3_transaction_append_witness :
    (executeTrade emptyStore c3req).1.transactions
        = emptyStore.transactions ++ [mkTransaction c3req] ∧
    (mkTransaction c3req).total_price = c3req.percentage * c3req.pricePerPercent := by
  have hs1 : ("a" : String) ≠ "" := by decide
  have hs2 : ("u" : String) ≠ "" := by decide
  have hs3 : ("buy" : String) ≠ "" := by decide
  have hrun : executeTrade emptyStore c3req
      = (⟨[⟨("u"), ("a"), 30⟩], [mkTransaction c3req]⟩, Except.ok 30) := by
    norm_num [executeTrade, emptyStore, c3req, lookupOwnership, List.find?, rowMatches,
      finishTrade, persistOwnership, dbInsertOwnership, dbInsertTransaction, mkTransaction,
      hs1, hs2, hs3]
  have h := C3_transaction_append emptyStore c3req _ 30 hrun
  simp only [hrun]
  exact ⟨h.1, h.2.2.1⟩

lemma finishTrade_error_msg (s : Store) (req : TradeRequest) (had : Bool) (nv : ℚ)
    (m : String) (h : (finishTrade s req had nv).2 = Except.error m) :
    m = msgOwnershipUpdateFailed ∨ m = msgOwnershipCreateFailed ∨ m = msgTxFailed := by
  unfold finishTrade at h
  cases hpo : persistOwnership s req had nv with
  | error e =>
    rw [hpo] at h
    dsimp only at h
    simp only [Except.error.injEq] at h
    split_ifs at h
    · exact Or.inl h.symm
    · exact Or.inr (Or.inl h.symm)
  | ok s1 =>
    rw [hpo] at h
    dsimp only at h
    cases htx : dbInsertTransaction s1 (mkTransaction req) with
    | error e =>
      rw [htx] at h
      simp only [Except.error.injEq] at h
      exact Or.inr (Or.inr h.symm)
    | ok s2 =>
      rw [htx] at h
      simp at h

def c4req : TradeRequest :=
  { assetId := "a", userId := "u", percentage := 10, mode := "hold", pricePerPercent := 2 }

/-- C4: every failing request is answered with one of the handler's
descriptive error messages instead of a success response; and the two-write
sequence is not atomic: in the concrete execution below the ownership
update is persisted (50 becomes 40) while the subsequent transaction insert
fails, so the handler reports an error yet the ownership change remains
and no transaction is recorded. -/
theorem C4_error_abort_nonatomic :
    (∀ (s : Store) (req : TradeRequest) (m : String),
      (executeTrade s req).2 = Except.error m →
        m = msgMissingFields ∨ m = msgInvalidPercentage ∨ m = msgOverbuy ∨
        m = msgInsufficient ∨ m = msgOwnershipUpdateFailed ∨
        m = msgOwnershipCreateFailed ∨ m = msgTxFailed) ∧
    executeTrade ⟨[⟨("u"), ("a"), 50⟩], []⟩ c4req
      = (⟨[⟨("u"), ("a"), 40⟩], []⟩, Except.error msgTxFailed) := by
  constructor
  · intro s req m h
    simp only [executeTrade] at h
    split_ifs at h with h1 h2 h3 h4 h5
    · simp only [Except.error.injEq] at h
      exact Or.inl h.symm
    · simp only [Except.error.injEq] at h
      exact Or.inr (Or.inl h.symm)
    · simp only [Except.error.injEq] at h
      exact Or.inr (Or.inr (Or.inl h.symm))
    · rcases finishTrade_error_msg _ _ _ _ _ h with h' | h' | h' <;> simp [h']
    · simp only [Except.error.injEq] at h
      exact Or.inr (Or.inr (Or.inr (Or.inl h.symm)))
    · rcases finishTrade_error_msg _ _ _ _ _ h with h' | h' | h' <;> simp [h']
  · have hs1 : ("a" : String) ≠ "" := by decide
    have hs2 : ("u" : String) ≠ "" := by decide
    have hs3 : ("hold" : String) ≠ "" := by decide
    have hs4 : ("hold" : String) ≠ "buy" := by decide
    have hs5 : ("hold" : String) ≠ "sell" := by decide
    norm_num [executeTrade, c4req, lookupOwnership, List.find?, rowMatches, finishTrade,
      persistOwnership, dbUpdateOwnership, dbInsertTransaction, mkTransaction,
      hs1, hs2, hs3, hs4, hs5]

/-- Witness for the universally quantified part of C4, at a concrete
invalid request. -/
theorem C4_error_abort_nonatomic_witness :
    msgInvalidPercentage = msgMissingFields ∨ msgInvalidPercentage = msgInvalidPercentage ∨
    msgInvalidPercentage = msgOverbuy ∨ msgInvalidPercentage = msgInsufficient ∨
    msgInvalidPercentage = msgOwnershipUpdateFailed ∨
    msgInvalidPercentage = msgOwnershipCreateFailed ∨ msgInvalidPercentage = msgTxFailed := by
  refine C4_error_abort_nonatomic.1 emptyStore
    { assetId := "a", userId := "u", percentage := 200, mode := "buy", pricePerPercent := 2 }
    msgInvalidPercentage ?_
  have hs1 : ("a" : String) ≠ "" := by decide
  have hs2 : ("u" : String) ≠ "" := by decide
  have hs3 : ("buy" : String) ≠ "" := by decide
  norm_num [executeTrade, hs1, hs2, hs3]

def c5req : TradeRequest :=
  { assetId := "a", userId := "u", percentage := 10, mode := "transfer", pricePerPercent := 2 }

/-- Counterexample to C5 as stated: with the arbitrary mode "transfer" the
request passes validation and runs the sell branch — the persisted
ownership drops from 50 to 40 — but no transaction record carrying
"transfer" is appended: the transactions table's `transaction_type` check
constraint rejects the insert, the handler answers with the
record-transaction failure, and the transaction log stays empty. -/
theorem C5_counterexample :
    executeTrade ⟨[⟨("u"), ("a"), 50⟩], []⟩ c5req
      = (⟨[⟨("u"), ("a"), 40⟩], []⟩, Except.error msgTxFailed) ∧
    (executeTrade ⟨[⟨("u"), ("a"), 50⟩], []⟩ c5req).1.transactions = [] := by
  have hs1 : ("a" : String) ≠ "" := by decide
  have hs2 : ("u" : String) ≠ "" := by decide
  have hs3 : ("transfer" : String) ≠ "" := by decide
  have hs4 : ("transfer" : String) ≠ "buy" := by decide
  have hs5 : ("transfer" : String) ≠ "sell" := by decide
  have h : executeTrade ⟨[⟨("u"), ("a"), 50⟩], []⟩ c5req
      = (⟨[⟨("u"), ("a"), 40⟩], []⟩, Except.error msgTxFailed) := by
    norm_num [executeTrade, c5req, lookupOwnership, List.find?, rowMatches, finishTrade,
      persistOwnership, dbUpdateOwnership, dbInsertTransaction, mkTransaction,
      hs1, hs2, hs3, hs4, hs5]
  exact ⟨h, by rw [h]⟩

/-- C5 amended: the handler checks only that the mode field is present,
never that it is "buy" or "sell".  A request with any other non-empty mode
passes validation and is processed through the sell branch — it requires
current ownership at least the requested percentage and persists the
decremented value — but the transaction insert it then attempts (with the
arbitrary mode string as transaction type and both party fields empty) is
rejected by the store's `transaction_type` check constraint, so the request
ends in the record-transaction error with the transaction log unchanged
and the ownership decrement already persisted. -/
theorem C5_amended (s : Store) (req : TradeRequest) (hwf : StoreWF s)
    (ha : req.assetId ≠ "") (hu : req.userId ≠ "") (hm : req.mode ≠ "")
    (hmb : req.mode ≠ "buy") (hms : req.mode ≠ "sell") (hppp : req.pricePerPercent ≠ 0)
    (hp : 0 < req.percentage) (hp2 : req.percentage ≤ 100)
    (hc : req.percentage ≤ (lookupOwnership s req.userId req.assetId).getD 0) :
    (executeTrade s req).2 = Except.error msgTxFailed ∧
    (executeTrade s req).1.transactions = s.transactions ∧
    (lookupOwnership (executeTrade s req).1 req.userId req.assetId).getD 0
      = (lookupOwnership s req.userId req.assetId).getD 0 - req.percentage ∧
    (mkTransaction req).buyer_id = none ∧ (mkTransaction req).seller_id = none ∧
    (mkTransaction req).transaction_type = req.mode := by
  have hsome : (lookupOwnership s req.userId req.assetId).isSome := by
    rcases ho : lookupOwnership s req.userId req.assetId with _ | c
    · rw [ho] at hc
      simp only [Option.getD_none] at hc
      linarith
    · simp
  obtain ⟨c, hcq⟩ := Option.isSome_iff_exists.mp hsome
  have hcbound : c ≤ 100 := by
    rw [lookupOwnership] at hcq
    obtain ⟨r, hr, hrc⟩ := Option.map_eq_some'.mp hcq
    have hmem := List.mem_of_find?_eq_some hr
    have hb := hwf.1 r hmem
    rw [hrc] at hb
    exact hb.2
  have hcge : req.percentage ≤ c := by rw [hcq] at hc; simpa using hc
  have hex : ∃ s1, persistOwnership s req (lookupOwnership s req.userId req.assetId).isSome
      (c - req.percentage) = Except.ok s1 := by
    unfold persistOwnership
    by_cases hz : c - req.percentage = 0
    · rw [if_pos hz]
      exact ⟨_, rfl⟩
    · rw [if_neg hz]
      simp only [hcq, Option.isSome_some, if_true]
      unfold dbUpdateOwnership
      rw [if_pos ⟨lt_of_le_of_ne (by linarith) (Ne.symm hz), by linarith⟩]
      exact ⟨_, rfl⟩
  obtain ⟨s1, hpo⟩ := hex
  have hps := persistOwnership_wf s req (c - req.percentage) s1 hwf hpo
  have htrans := persistOwnership_transactions _ _ _ _ _ hpo
  have htx : dbInsertTransaction s1 (mkTransaction req) = Except.error msgCheckViolation := by
    unfold dbInsertTransaction
    rw [if_neg]
    intro hcontra
    rcases hcontra.2 with hb | hsell
    · exact hmb (by simpa [mkTransaction] using hb)
    · exact hms (by simpa [mkTransaction] using hsell)
  have hval : ¬(req.assetId = "" ∨ req.userId = "" ∨ req.percentage = 0 ∨ req.mode = "" ∨
      req.pricePerPercent = 0) := by
    push_neg
    exact ⟨ha, hu, ne_of_gt hp, hm, hppp⟩
  have hval2 : ¬(req.percentage ≤ 0 ∨ 100 < req.percentage) := by
    push_neg
    exact ⟨hp, hp2⟩
  have hlt : ¬((lookupOwnership s req.userId req.assetId).getD 0 < req.percentage) :=
    not_lt.mpr hc
  have hmain : executeTrade s req = (s1, Except.error msgTxFailed) := by
    simp only [executeTrade]
    rw [if_neg hval, if_neg hval2, if_neg hmb, if_neg hlt]
    have hgd : (lookupOwnership s req.userId req.assetId).getD 0 = c := by
      rw [hcq]
      rfl
    rw [hgd]
    unfold finishTrade
    rw [hpo]
    dsimp only
    rw [htx]
  refine ⟨by rw [hmain], by rw [hmain]; exact htrans, ?_, by simp [mkTransaction, hmb],
    by simp [mkTransaction, hms], rfl⟩
  rw [hmain, hcq]
  simp only [Option.getD_some]
  by_cases hz : c - req.percentage = 0
  · rw [hps.2.1 hz, hz]
    rfl
  · rw [hps.2.2 hz]
    rfl

/-- Witness for the amended C5 at a concrete request with mode "gift". -/
theorem C5_amended_witness :
    (executeTrade ⟨[⟨("u"), ("a"), 50⟩], []⟩
      { assetId := "a", userId := "u", percentage := 10, mode := "gift",
        pricePerPercent := 3 }).2 = Except.error msgTxFailed := by
  have hwf : StoreWF ⟨[⟨("u"), ("a"), 50⟩], []⟩ := by
    constructor
    · intro r hr
      rw [List.mem_singleton] at hr
      subst hr
      norm_num
    · exact List.pairwise_singleton _ _
  have hc : (10 : ℚ) ≤ (lookupOwnership ⟨[⟨("u"), ("a"), 50⟩], []⟩ ("u") ("a")).getD 0 := by
    norm_num [lookupOwnership, List.find?, rowMatches]
  exact (C5_amended ⟨[⟨("u"), ("a"), 50⟩], []⟩
    { assetId := "a", userId := "u", percentage := 10, mode := "gift", pricePerPercent := 3 }
    hwf (by decide) (by decide) (by decide) (by decide) (by decide) (by norm_num)
    (by norm_num) (by norm_num) hc).1

/-! Part 2: the load-curve analyzer.  JavaScript numbers are modelled as
`Option ℚ`: `none` plays the role of NaN and absorbs through arithmetic,
`Math.max`, and makes `===` and `>` comparisons false, as in JavaScript.
Division is idealised by the rational convention `q / 0 = 0` (the source
never branches on a divided value, so only NaN-ness is observable here). -/

def jadd : Option ℚ → Option ℚ → Option ℚ
  | some a, some b => some (a + b)
  | _, _ => none

def jmul : Option ℚ → Option ℚ → Option ℚ
  | some a, some b => some (a * b)
  | _, _ => none

def jdiv : Option ℚ → Option ℚ → Option ℚ
  | some a, some b => some (a / b)
  | _, _ => none

def jmax : Option ℚ → Option ℚ → Option ℚ
  | some a, some b => some (max a b)
  | _, _ => none

/-- JavaScript strict equality on numbers: false when either side is NaN. -/
def jeqb : Option ℚ → Option ℚ → Bool
  | some a, some b => a == b
  | _, _ => false

/-- JavaScript greater-than on numbers: false when either side is NaN. -/
def jgtb : Option ℚ → Option ℚ → Bool
  | some a, some b => decide (b < a)
  | _, _ => false

/-- What the analyzer reads off a parsed `Date`: its epoch-millisecond
value (`getTime()`) and its local hour of day (`getHours()`). -/
structure Timestamp where
  epochMs : ℚ
  hour : ℕ
deriving DecidableEq

/-- The `LoadCurveData` interface: one parsed sample. -/
structure LoadCurveData where
  timestamp : Timestamp
  value : Option ℚ
deriving DecidableEq

def isWhitespace (c : Char) : Bool :=
  c == ' ' || c == '\t' || c == '\n' || c == '\r'

/-- `String.prototype.trim`. -/
def trimChars (s : List Char) : List Char :=
  ((s.dropWhile isWhitespace).reverse.dropWhile isWhitespace).reverse

def digitsToNat (ds : List Char) : ℕ :=
  ds.foldl (fun a c => a * 10 + (c.toNat - 48)) 0

/-- JavaScript `parseFloat` on decimal notation: an optional sign followed
by integer and/or fractional digits; NaN (`none`) when no digits lead the
text.  (Exponent notation is not modelled; no input in this development
uses it.) -/
def parseFloat (s : List Char) : Option ℚ :=
  let s1 := s.dropWhile isWhitespace
  let signAndRest :=
    match s1 with
    | c :: rest =>
      if c == '-' then (true, rest) else if c == '+' then (false, rest) else (false, s1)
    | [] => (false, s1)
  let s2 := signAndRest.2
  let ip := s2.takeWhile Char.isDigit
  let r1 := s2.dropWhile Char.isDigit
  let fp :=
    match r1 with
    | c :: rest => if c == '.' then rest.takeWhile Char.isDigit else []
    | [] => []
  if ip.isEmpty && fp.isEmpty then none
  else
    let mag : ℚ := (digitsToNat ip : ℚ) + (digitsToNat fp : ℚ) / ((10 : ℚ) ^ fp.length)
    some (if signAndRest.1 then -mag else mag)

/-- `parseCSV`: split the trimmed content on newlines, skip the header row,
split each row at commas, keep a row only when its first two fields are
non-empty, and parse the second field with `parseFloat` (never validating
that it is numeric).  The external `new Date(...)` constructor is passed in
as `parseDate`. -/
def parseCSV (parseDate : List Char → Timestamp) (content : List Char) :
    List LoadCurveData :=
  let lines := (trimChars content).splitOn '\n'
  (lines.drop 1).filterMap (fun line =>
    match line.splitOn ',' with
    | t :: v :: _ =>
      if ¬t.isEmpty ∧ ¬v.isEmpty then
        some { timestamp := parseDate t, value := parseFloat v }
      else none
    | _ => none)

inductive TimeSlot
  | night
  | morning
  | afternoon
  | evening
deriving DecidableEq

/-- The hour classification of the forEach: `hour >= 0` always holds for a
natural-number hour, so only the upper bounds are tested. -/
def slotOf (hour : ℕ) : TimeSlot :=
  if hour < 6 then TimeSlot.night
  else if hour < 12 then TimeSlot.morning
  else if hour < 18 then TimeSlot.afternoon
  else TimeSlot.evening

/-- The `timeSlots` accumulator object. -/
structure Slots where
  night : Option ℚ
  morning : Option ℚ
  afternoon : Option ℚ
  evening : Option ℚ
deriving DecidableEq

def addToSlot (s : Slots) (d : LoadCurveData) : Slots :=
  match slotOf d.timestamp.hour with
  | TimeSlot.night => { s with night := jadd s.night d.value }
  | TimeSlot.morning => { s with morning := jadd s.morning d.value }
  | TimeSlot.afternoon => { s with afternoon := jadd s.afternoon d.value }
  | TimeSlot.evening => { s with evening := jadd s.evening d.value }

def initSlots : Slots :=
  { night := some 0, morning := some 0, afternoon := some 0, evening := some 0 }

def slotsOf (data : List LoadCurveData) : Slots := data.foldl addToSlot initSlots

/-- `data.reduce((sum, d) => sum + d.value, 0)`. -/
def totalOf (data : List LoadCurveData) : Option ℚ :=
  data.foldl (fun acc d => jadd acc d.value) (some 0)

/-- `(lastDate.getTime() - firstDate.getTime()) / (1000 * 60 * 60 * 24)`;
only evaluated on non-empty data in the source. -/
def daysDiffOf (data : List LoadCurveData) : ℚ :=
  match data with
  | [] => 0
  | d :: rest => ((rest.getLast?.getD d).timestamp.epochMs - d.timestamp.epochMs) / 86400000

/-- `Math.max(...data.map(d => d.value))`; only evaluated on non-empty
data in the source. -/
def peakOf (data : List LoadCurveData) : Option ℚ :=
  match data with
  | [] => none
  | d :: rest => rest.foldl (fun acc x => jmax acc x.value) d.value

/-- `(timeSlots.x / totalConsumption) * 100`. -/
def shareOf (slot total : Option ℚ) : Option ℚ := jmul (jdiv slot total) (some 100)

def patternDaytime : String := "daytime-driven"

def patternEvening : String := "evening-driven"

def patternNight : String := "night-driven"

def patternMixed : String := "mixed"

/-- The pattern classification over the four percentage shares.
`Math.max(...Object.values(...))` folds in insertion order night, morning,
afternoon, evening. -/
def classifyPattern (n m a e : Option ℚ) : String :=
  let mx := jmax (jmax (jmax n m) a) e
  if jeqb a mx && jgtb a (some 35) then patternDaytime
  else if jeqb e mx && jgtb e (some 35) then patternEvening
  else if jeqb n mx && jgtb n (some 30) then patternNight
  else patternMixed

/-- The analysis record returned by `analyzeLoadCurve`; the numeric fields
carry the computed values (the source formats them with `toFixed` for
display only). -/
structure Analysis where
  totalConsumption : Option ℚ
  avgDailyConsumption : Option ℚ
  peakLoad : Option ℚ
  nightShare : Option ℚ
  morningShare : Option ℚ
  afternoonShare : Option ℚ
  eveningShare : Option ℚ
  pattern : String
  dataPoints : ℕ
deriving DecidableEq

def msgNoData : String := "No data to analyze"

def analyzeLoadCurve (data : List LoadCurveData) : Except String Analysis :=
  if data.isEmpty then Except.error msgNoData
  else
    let total := totalOf data
    let slots := slotsOf data
    let nS := shareOf slots.night total
    let mS := shareOf slots.morning total
    let aS := shareOf slots.afternoon total
    let eS := shareOf slots.evening total
    Except.ok
      { totalConsumption := total
        avgDailyConsumption := jdiv total (some (daysDiffOf data))
        peakLoad := peakOf data
        nightShare := nS
        morningShare := mS
        afternoonShare := aS
        eveningShare := eS
        pattern := classifyPattern nS mS aS eS
        dataPoints := data.length }

/-- The sum of the four bucket accumulators. -/
def slotSum (s : Slots) : Option ℚ :=
  jadd (jadd (jadd s.night s.morning) s.afternoon) s.evening

lemma jadd_comm (a b : Option ℚ) : jadd a b = jadd b a := by
  cases a <;> cases b <;> simp [jadd, add_comm]

lemma jadd_assoc (a b c : Option ℚ) : jadd (jadd a b) c = jadd a (jadd b c) := by
  cases a <;> cases b <;> cases c <;> simp [jadd, add_assoc]

lemma jadd_left_comm (a b c : Option ℚ) : jadd a (jadd b c) = jadd b (jadd a c) := by
  rw [← jadd_assoc, jadd_comm a b, jadd_assoc]

lemma slotSum_addToSlot (s : Slots) (d : LoadCurveData) :
    slotSum (addToSlot s d) = jadd (slotSum s) d.value := by
  unfold addToSlot
  cases slotOf d.timestamp.hour <;>
    simp [slotSum, jadd_assoc, jadd_comm, jadd_left_comm]

lemma slotSum_foldl (data : List LoadCurveData) :
    ∀ s0 : Slots, slotSum (data.foldl addToSlot s0) =
      data.foldl (fun acc d => jadd acc d.value) (slotSum s0) := by
  induction data with
  | nil => intro s0; rfl
  | cons d rest ih =>
    intro s0
    simp only [List.foldl_cons, ih, slotSum_addToSlot]

lemma slotSum_slotsOf (data : List LoadCurveData) :
    slotSum (slotsOf data) = totalOf data := by
  have h := slotSum_foldl data initSlots
  have hinit : slotSum initSlots = some 0 := by
    simp [slotSum, initSlots, jadd]
  rw [slotsOf, h, hinit, totalOf]

lemma jadd_eq_some (a b : Option ℚ) (t : ℚ) (h : jadd a b = some t) :
    ∃ x y, a = some x ∧ b = some y ∧ x + y = t := by
  cases a with
  | none => simp [jadd] at h
  | some x =>
    cases b with
    | none => simp [jadd] at h
    | some y =>
      simp only [jadd, Option.some.injEq] at h
      exact ⟨x, y, rfl, rfl, h⟩

/-- C8: the hour classification sends every hour in [0, 24) to exactly the
claimed bucket; the four bucket sums always add up to the reduce-computed
total; and when the total is a nonzero number the four percentage shares
add up to exactly 100. -/
theorem C8_bucket_partition (data : List LoadCurveData) :
    (∀ h : ℕ, h < 24 →
      ((slotOf h = TimeSlot.night ↔ h < 6) ∧
       (slotOf h = TimeSlot.morning ↔ 6 ≤ h ∧ h < 12) ∧
       (slotOf h = TimeSlot.afternoon ↔ 12 ≤ h ∧ h < 18) ∧
       (slotOf h = TimeSlot.evening ↔ 18 ≤ h))) ∧
    slotSum (slotsOf data) = totalOf data ∧
    (∀ t : ℚ, totalOf data = some t → t ≠ 0 →
      jadd (jadd (jadd (shareOf (slotsOf data).night (totalOf data))
          (shareOf (slotsOf data).morning (totalOf data)))
          (shareOf (slotsOf data).afternoon (totalOf data)))
          (shareOf (slotsOf data).evening (totalOf data)) = some 100) := by
  refine ⟨?_, slotSum_slotsOf data, ?_⟩
  · intro h hh
    unfold slotOf
    split_ifs with h6 h12 h18 <;> refine ⟨?_, ?_, ?_, ?_⟩ <;> simp <;> omega
  · intro t ht hne
    have hsum : jadd (jadd (jadd (slotsOf data).night (slotsOf data).morning)
        (slotsOf data).afternoon) (slotsOf data).evening = some t := by
      rw [← ht, ← slotSum_slotsOf data]
      rfl
    obtain ⟨x3, ev, h3, hev, hs3⟩ := jadd_eq_some _ _ _ hsum
    obtain ⟨x2, af, h2, haf, hs2⟩ := jadd_eq_some _ _ _ h3
    obtain ⟨ni, mo, hni, hmo, hs1⟩ := jadd_eq_some _ _ _ h2
    rw [ht, hni, hmo, haf, hev]
    simp only [shareOf, jdiv, jmul, jadd, Option.some.injEq]
    field_simp
    linarith

def c8data : List LoadCurveData := [⟨⟨0, 1⟩, some 10⟩, ⟨⟨0, 13⟩, some 30⟩]

/-- Witness for C8 at a concrete two-sample series with total 40. -/
theorem C8_bucket_partition_witness :
    slotOf 13 = TimeSlot.afternoon ∧
    jadd (jadd (jadd (shareOf (slotsOf c8data).night (totalOf c8data))
        (shareOf (slotsOf c8data).morning (totalOf c8data)))
        (shareOf (slotsOf c8data).afternoon (totalOf c8data)))
        (shareOf (slotsOf c8data).evening (totalOf c8data)) = some 100 := by
  have h := C8_bucket_partition c8data
  refine ⟨((h.1 13 (by norm_num)).2.2.1).mpr (by norm_num), ?_⟩
  refine h.2.2 40 ?_ (by norm_num)
  norm_num [c8data, totalOf, jadd]

def c6data : List LoadCurveData :=
  [⟨⟨0, 1⟩, some 10⟩, ⟨⟨0, 7⟩, some 10⟩, ⟨⟨0, 13⟩, some 40⟩, ⟨⟨0, 19⟩, some 40⟩]

/-- Counterexample to C6 as stated: on this series the afternoon and
evening buckets tie for the maximal share (both 40%), yet the label is
"daytime-driven" — a tie for the maximal bucket does produce a driven
label, because the source tests `afternoon === max` which a tied afternoon
still satisfies. -/
theorem C6_counterexample :
    analyzeLoadCurve c6data = Except.ok
      { totalConsumption := some 100, avgDailyConsumption := some 0, peakLoad := some 40,
        nightShare := some 10, morningShare := some 10, afternoonShare := some 40,
        eveningShare := some 40, pattern := patternDaytime, dataPoints := 4 } ∧
    max (max (max (10 : ℚ) 10) 40) 40 = 40 := by
  constructor
  · norm_num +decide [analyzeLoadCurve, c6data, totalOf, slotsOf, initSlots, addToSlot,
      slotOf, daysDiffOf, peakOf, shareOf, classifyPattern, jadd, jmul, jdiv, jmax, jeqb,
      jgtb, patternDaytime, patternMixed, patternEvening, patternNight, msgNoData]
  · norm_num

/-- C6 amended: over real-valued shares the label is "daytime-driven"
exactly when the afternoon share equals the running maximum and exceeds 35,
"evening-driven" exactly when the evening share does so (and afternoon did
not fire first), "night-driven" exactly when the night share equals the
maximum and exceeds 30 (and neither earlier branch fired), and "mixed"
otherwise; a strictly maximal morning bucket always yields "mixed".  A tie
with the maximum does not prevent a driven label. -/
theorem C6_pattern_amended (n m a e : ℚ) :
    (classifyPattern (some n) (some m) (some a) (some e) = patternDaytime ↔
      (a = max (max (max n m) a) e ∧ 35 < a)) ∧
    (classifyPattern (some n) (some m) (some a) (some e) = patternEvening ↔
      (e = max (max (max n m) a) e ∧ 35 < e) ∧
        ¬(a = max (max (max n m) a) e ∧ 35 < a)) ∧
    (classifyPattern (some n) (some m) (some a) (some e) = patternNight ↔
      (n = max (max (max n m) a) e ∧ 30 < n) ∧
        ¬(a = max (max (max n m) a) e ∧ 35 < a) ∧
        ¬(e = max (max (max n m) a) e ∧ 35 < e)) ∧
    (classifyPattern (some n) (some m) (some a) (some e) = patternMixed ↔
      ¬(a = max (max (max n m) a) e ∧ 35 < a) ∧
        ¬(e = max (max (max n m) a) e ∧ 35 < e) ∧
        ¬(n = max (max (max n m) a) e ∧ 30 < n)) ∧
    ((n < m ∧ a < m ∧ e < m) → classifyPattern (some n) (some m) (some a) (some e)
      = patternMixed) := by
  have d1 : patternDaytime ≠ patternEvening := by decide
  have d2 : patternDaytime ≠ patternNight := by decide
  have d3 : patternDaytime ≠ patternMixed := by decide
  have d4 : patternEvening ≠ patternNight := by decide
  have d5 : patternEvening ≠ patternMixed := by decide
  have d6 : patternNight ≠ patternMixed := by decide
  have hmle : m ≤ max (max (max n m) a) e :=
    le_trans (le_max_right n m) (le_trans (le_max_left _ a) (le_max_left _ e))
  simp only [classifyPattern, jmax, jeqb, jgtb, beq_iff_eq, Bool.and_eq_true,
    decide_eq_true_eq]
  split_ifs with hA hE hN
  · refine ⟨iff_of_true rfl hA, iff_of_false d1 (fun h => h.2 hA),
      iff_of_false d2 (fun h => h.2.1 hA), iff_of_false d3 (fun h => h.1 hA), ?_⟩
    rintro ⟨-, h2, -⟩
    have h4 := hA.1
    linarith [hmle]
  · refine ⟨iff_of_false (Ne.symm d1) hA, iff_of_true rfl ⟨hE, hA⟩,
      iff_of_false d4 (fun h => h.2.2 hE), iff_of_false d5 (fun h => h.2.1 hE), ?_⟩
    rintro ⟨-, -, h3⟩
    have h4 := hE.1
    linarith [hmle]
  · refine ⟨iff_of_false (Ne.symm d2) hA, iff_of_false (Ne.symm d4) (fun h => hE h.1),
      iff_of_true rfl ⟨hN, hA, hE⟩, iff_of_false d6 (fun h => h.2.2 hN), ?_⟩
    rintro ⟨h1, -, -⟩
    have h4 := hN.1
    linarith [hmle]
  · exact ⟨iff_of_false (Ne.symm d3) hA, iff_of_false (Ne.symm d5) (fun h => hE h.1),
      iff_of_false (Ne.symm d6) (fun h => hN h.1), iff_of_true rfl ⟨hA, hE, hN⟩,
      fun _ => rfl⟩

/-- Witness for the amended C6: a tied afternoon maximum above 35 yields
the daytime label. -/
theorem C6_pattern_amended_witness :
    classifyPattern (some 10) (some 10) (some 40) (some 40) = patternDaytime := by
  exact (C6_pattern_amended 10 10 40 40).1.mpr ⟨by norm_num, by norm_num⟩

/-- C9: the day span is the difference of last and first timestamps in
days, the average is the total divided by that span with no guard, and a
non-empty series whose first and last timestamps coincide is still
analyzed successfully with a zero span rather than rejected. -/
theorem C9_zero_span_completes (d : LoadCurveData) (rest : List LoadCurveData)
    (hspan : (rest.getLast?.getD d).timestamp.epochMs = d.timestamp.epochMs) :
    daysDiffOf (d :: rest) = 0 ∧
    ∃ r, analyzeLoadCurve (d :: rest) = Except.ok r ∧
      r.avgDailyConsumption = jdiv r.totalConsumption (some (daysDiffOf (d :: rest))) ∧
      r.avgDailyConsumption = jdiv r.totalConsumption (some 0) := by
  have hdd : daysDiffOf (d :: rest) = 0 := by
    simp [daysDiffOf, hspan]
  refine ⟨hdd, ?_⟩
  simp only [analyzeLoadCurve, List.isEmpty_cons, Bool.false_eq_true, if_false]
  exact ⟨_, rfl, rfl, by rw [← hdd]⟩

/-- Witness for C9: a single-row series is analyzed with a zero day span. -/
theorem C9_zero_span_completes_witness :
    daysDiffOf [⟨⟨5, 3⟩, some 7⟩] = 0 ∧
    ∃ r, analyzeLoadCurve [⟨⟨5, 3⟩, some 7⟩] = Except.ok r ∧
      r.avgDailyConsumption = jdiv r.totalConsumption (some 0) := by
  have h := C9_zero_span_completes ⟨⟨5, 3⟩, some 7⟩ [] rfl
  exact ⟨h.1, h.2.imp (fun r hr => ⟨hr.1, hr.2.2⟩)⟩

lemma jadd_none_right (x : Option ℚ) : jadd x none = none := by cases x <;> rfl

lemma jmax_none_right (x : Option ℚ) : jmax x none = none := by cases x <;> rfl

lemma jdiv_none_right (x : Option ℚ) : jdiv x none = none := by cases x <;> rfl

lemma jmul_none_left (x : Option ℚ) : jmul none x = none := rfl

lemma shareOf_none (x : Option ℚ) : shareOf x none = none := by
  rw [shareOf, jdiv_none_right, jmul_none_left]

lemma parseFloat_ten : parseFloat ['1', '0'] = some 10 := by
  have h1 : ('1' : Char).toNat = 49 := by decide
  have h0 : ('0' : Char).toNat = 48 := by decide
  have hd : List.dropWhile isWhitespace ['1', '0'] = ['1', '0'] := by decide
  have ht : List.takeWhile Char.isDigit ['1', '0'] = ['1', '0'] := by decide
  have ht2 : List.dropWhile Char.isDigit ['1', '0'] = [] := by decide
  norm_num +decide [parseFloat, digitsToNat, hd, ht, ht2, h1, h0]

lemma parseFloat_abc : parseFloat ['a', 'b', 'c'] = none := by
  have hd : List.dropWhile isWhitespace ['a', 'b', 'c'] = ['a', 'b', 'c'] := by decide
  have ht : List.takeWhile Char.isDigit ['a', 'b', 'c'] = [] := by decide
  have ht2 : List.dropWhile Char.isDigit ['a', 'b', 'c'] = ['a', 'b', 'c'] := by decide
  norm_num +decide [parseFloat, digitsToNat, hd, ht, ht2]

/-- A CSV input for C10: a header row, a well-formed row with value 10, a
row whose value field is the non-numeric text "abc" (standing for rows such
as "2024-01-01T00:00:00,abc"), a row with an empty first field, and a row
with an empty second field. -/
def csvChars : List Char :=
  ['t', ',', 'v', '\n', 'A', ',', '1', '0', '\n', 'B', ',', 'a', 'b', 'c', '\n',
   ',', '5', '\n', 'C', ',', '\n']

/-- C10: parseCSV skips only the rows with an empty first or second field
and never checks numericity — the row with value text "abc" is included
with the NaN value `parseFloat` produces — and that NaN propagates into the
analyzer's total consumption, peak load, and all four bucket shares. -/
theorem C10_nonnumeric_row_included (pd : List Char → Timestamp) :
    parseCSV pd csvChars =
      [{ timestamp := pd ['A'], value := some 10 },
       { timestamp := pd ['B'], value := parseFloat ['a', 'b', 'c'] }] ∧
    parseFloat ['a', 'b', 'c'] = none ∧
    totalOf (parseCSV pd csvChars) = none ∧
    peakOf (parseCSV pd csvChars) = none ∧
    ∃ r, analyzeLoadCurve (parseCSV pd csvChars) = Except.ok r ∧
      r.totalConsumption = none ∧ r.peakLoad = none ∧ r.nightShare = none ∧
      r.morningShare = none ∧ r.afternoonShare = none ∧ r.eveningShare = none := by
  have hs : List.splitOn '\n' (trimChars csvChars) =
      [['t', ',', 'v'], ['A', ',', '1', '0'], ['B', ',', 'a', 'b', 'c'], [',', '5'],
       ['C', ',']] := by decide
  have h2 : List.splitOn ',' ['A', ',', '1', '0'] = [['A'], ['1', '0']] := by decide
  have h3 : List.splitOn ',' ['B', ',', 'a', 'b', 'c'] = [['B'], ['a', 'b', 'c']] := by decide
  have h4 : List.splitOn ',' [',', '5'] = [[], ['5']] := by decide
  have h5 : List.splitOn ',' ['C', ','] = [['C'], []] := by decide
  have hparse : parseCSV pd csvChars =
      [{ timestamp := pd ['A'], value := some 10 },
       { timestamp := pd ['B'], value := parseFloat ['a', 'b', 'c'] }] := by
    norm_num +decide [parseCSV, hs, h2, h3, h4, h5, List.filterMap_cons, parseFloat_ten]
  have htotal : totalOf (parseCSV pd csvChars) = none := by
    rw [hparse, parseFloat_abc]
    simp [totalOf, jadd_none_right]
  have hpeak : peakOf (parseCSV pd csvChars) = none := by
    rw [hparse, parseFloat_abc]
    simp [peakOf, jmax_none_right]
  refine ⟨hparse, parseFloat_abc, htotal, hpeak, ?_⟩
  rw [hparse]
  simp only [analyzeLoadCurve, List.isEmpty_cons, Bool.false_eq_true, if_false]
  rw [hparse] at htotal hpeak
  refine ⟨_, rfl, ?_, ?_, ?_, ?_, ?_, ?_⟩ <;>
    simp [htotal, hpeak, shareOf_none, jmul_none_left, shareOf, jdiv_none_right]

/-- The opening-brace character, written by code point. -/
def lbrace : Char := Char.ofNat 123

/-- The closing-brace character, written by code point. -/
def rbrace : Char := Char.ofNat 125

/-- The double-quote character, written by code point. -/
def quoteChar : Char := Char.ofNat 34

/-- The `aiResponse.match(/\x7b[\s\S]*\x7d/)` regular-expression match (the
pattern is an opening brace, any characters, a closing brace, with the
greedy star): the matched substring runs from the first opening brace to
the last closing brace, and there is no match when no closing brace
follows an opening brace. -/
def jsRegexExtract (s : List Char) : Option (List Char) :=
  let t := s.dropWhile (fun c => !(c == lbrace))
  let u := (t.reverse.dropWhile (fun c => !(c == rbrace))).reverse
  if u.isEmpty then none else some u

def msgInvalidFormat : String := "Invalid analysis format"

/-- Lines 217-227 of the analyze-load-curve handler: reject with the format
error when the reply has no match, otherwise hand the matched substring on
(to the external JSON.parse). -/
def extractRecommendation (s : List Char) : Except String (List Char) :=
  match jsRegexExtract s with
  | none => Except.error msgInvalidFormat
  | some m => Except.ok m

/-- Modelled from the spec: helper for the first balanced-brace substring —
scan from an opening brace, tracking depth, and return the consumed prefix
once the depth returns to zero. -/
def balancedFrom : ℕ → List Char → List Char → Option (List Char)
  | _, _, [] => none
  | d, acc, c :: rest =>
    if c == lbrace then balancedFrom (d + 1) (acc ++ [c]) rest
    else if c == rbrace then
      if d = 1 then some (acc ++ [c])
      else if d = 0 then none
      else balancedFrom (d - 1) (acc ++ [c]) rest
    else balancedFrom d (acc ++ [c]) rest

/-- Modelled from the spec: "Extract the first balanced-brace JSON
substring from the model's free-text reply" — the earliest substring that
starts at an opening brace and closes with balanced braces.  The source
has no such function; this definition exists only to compare the spec's
description with the regular-expression extraction the source performs. -/
def firstBalancedBrace : List Char → Option (List Char)
  | [] => none
  | c :: rest =>
    if c == lbrace then
      match balancedFrom 0 [] (c :: rest) with
      | some u => some u
      | none => firstBalancedBrace rest
    else firstBalancedBrace rest

/-- A model reply: prose, then the JSON object, then prose containing one
more closing brace. -/
def c7reply : List Char :=
  ['o', 'k', ' ', lbrace, quoteChar, 'P', 'V', quoteChar, ':', '4', '0', rbrace,
   ' ', 'x', rbrace]

/-- The JSON object embedded in the reply. -/
def c7object : List Char :=
  [lbrace, quoteChar, 'P', 'V', quoteChar, ':', '4', '0', rbrace]

/-- Counterexample to C7 as stated: on a reply holding a valid JSON object
surrounded by prose with one extra closing brace, the handler's greedy
regular expression does not extract the first balanced-brace JSON
substring — it matches from the first opening brace to the last closing
brace, yielding a longer, unbalanced string. -/
theorem C7_counterexample :
    firstBalancedBrace c7reply = some c7object ∧
    jsRegexExtract c7reply = some (c7object ++ [' ', 'x', rbrace]) ∧
    jsRegexExtract c7reply ≠ firstBalancedBrace c7reply := by
  refine ⟨by decide, by decide, by decide⟩

lemma head?_dropWhile_false (p : Char → Bool) (l : List Char) (a : Char)
    (h : (l.dropWhile p).head? = some a) : p a = false := by
  induction l with
  | nil => simp at h
  | cons c rest ih =>
    rw [List.dropWhile_cons] at h
    by_cases hp : p c
    · rw [if_pos hp] at h
      exact ih h
    · rw [if_neg hp] at h
      simp only [List.head?_cons, Option.some.injEq] at h
      subst h
      simpa using hp

/-- C7 amended: the extraction is the greedy regular-expression match, not
balanced-brace matching — a reply with no match is rejected with the
"Invalid analysis format" error, and a matched substring is exactly the
stretch of the reply from its first opening brace to its last closing
brace: no opening brace precedes it, no closing brace follows it, and it
begins with an opening and ends with a closing brace. -/
theorem C7_extraction_amended (r : List Char) :
    (jsRegexExtract r = none → extractRecommendation r = Except.error msgInvalidFormat) ∧
    ∀ m, jsRegexExtract r = some m →
      extractRecommendation r = Except.ok m ∧
      ∃ pre post, r = pre ++ m ++ post ∧
        (∀ c ∈ pre, ¬ c = lbrace) ∧ (∀ c ∈ post, ¬ c = rbrace) ∧
        m.head? = some lbrace ∧ m.getLast? = some rbrace := by
  constructor
  · intro h
    rw [extractRecommendation, h]
  · intro m hm
    have hrec : extractRecommendation r = Except.ok m := by
      rw [extractRecommendation, hm]
    refine ⟨hrec, ?_⟩
    simp only [jsRegexExtract] at hm
    split_ifs at hm with he
    simp only [Option.some.injEq] at hm
    set pre := r.takeWhile (fun c => !(c == lbrace)) with hpre
    set t := r.dropWhile (fun c => !(c == lbrace)) with ht
    set tw := t.reverse.takeWhile (fun c => !(c == rbrace)) with htw
    set dw := t.reverse.dropWhile (fun c => !(c == rbrace)) with hdw
    subst hm
    have hu : dw ≠ [] := by
      intro h0
      rw [h0] at he
      simp at he
    have hune : dw.reverse ≠ [] := by
      intro h0
      rw [List.reverse_eq_nil_iff] at h0
      exact hu h0
    have hteq : t = dw.reverse ++ tw.reverse := by
      have h2 : tw ++ dw = t.reverse := List.takeWhile_append_dropWhile _ _
      calc t = t.reverse.reverse := (List.reverse_reverse t).symm
        _ = (tw ++ dw).reverse := by rw [h2]
        _ = dw.reverse ++ tw.reverse := List.reverse_append _ _
    have h1 : pre ++ t = r := List.takeWhile_append_dropWhile _ _
    refine ⟨pre, tw.reverse, ?_, ?_, ?_, ?_, ?_⟩
    · rw [List.append_assoc, ← hteq, h1]
    · intro c hc
      have hcp := List.mem_takeWhile_imp hc
      simpa using hcp
    · intro c hc
      rw [List.mem_reverse] at hc
      have hcp := List.mem_takeWhile_imp hc
      simpa using hcp
    · obtain ⟨x, xs, hx⟩ := List.exists_cons_of_ne_nil hune
      have hth : t.head? = some x := by
        rw [hteq, hx]
        rfl
      rw [ht] at hth
      have hp := head?_dropWhile_false _ _ _ hth
      have hxl : x = lbrace := by simpa using hp
      rw [hx, hxl]
      rfl
    · rw [List.getLast?_reverse]
      obtain ⟨y, ys, hy⟩ := List.exists_cons_of_ne_nil hu
      have hdh : dw.head? = some y := by
        rw [hy]
        rfl
      rw [hdw] at hdh
      have hq := head?_dropWhile_false _ _ _ hdh
      have hyr : y = rbrace := by simpa using hq
      rw [← hdw] at hdh
      rw [hdh, hyr]

/-- Witness for the amended C7: the concrete reply's greedy match and a
brace-free reply's format error. -/
theorem C7_extraction_amended_witness :
    extractRecommendation c7reply = Except.ok (c7object ++ [' ', 'x', rbrace]) ∧
    extractRecommendation ['h', 'i'] = Except.error msgInvalidFormat := by
  exact ⟨((C7_extraction_amended c7reply).2 (c7object ++ [' ', 'x', rbrace]) (by decide)).1,
    (C7_extraction_amended ['h', 'i']).1 (by decide)⟩
